import Mathlib

/-!
Verification development for the synedra-ai repository.

Part I models the Debate & Consensus Engine (ScoringEngine,
ConvergenceDetector, SpeakerSelector, DebateSession quorum handling).
The engine itself (`utils/debate_orchestrator.py`, the agent modules and
the CMO arbitration code) is described by the repository's documentation
but its code is not present in the source tree, so these definitions are
modelled from the specification text.

Part II embeds frontend code that is present in the source tree:
`displayDebates` from `Minimal_Version/static/js/scripts.js`, the
`ChatPanel` message merge, and the `useWebSocket` reconnect logic.
-/

namespace Synedra

/-- A reviewer's vote.  Ordinals: reject = 0, conditional = 1, approve = 2. -/
inductive Vote where
  | reject
  | conditional
  | approve
  deriving DecidableEq, Repr

/-- Ordinal of a vote: reject = 0, conditional = 1, approve = 2. -/
def Vote.ordinal : Vote → Nat
  | .reject => 0
  | .conditional => 1
  | .approve => 2

/-- Modelled from the spec: an Opinion (§3).  `vote = none` records an
ABSTAIN opinion (a timed-out reviewer); an abstain carries `score = none`. -/
structure Opinion where
  reviewer_id : String
  round : Nat
  vote : Option Vote
  score : Option ℚ
  deriving DecidableEq, Repr

/-- Modelled from the spec: a Reviewer (§3); only the fields the scoring
path reads are kept. -/
structure Reviewer where
  id : String
  base_weight : ℚ
  deriving DecidableEq, Repr

/-- Modelled from the spec: a HardRule (§3) — a predicate over the current
Opinion set, with a priority; the forced vote is always reject. -/
structure HardRule where
  id : String
  priority : Nat
  predicate : List Opinion → Bool

/-- Modelled from the spec: a WeightAdjustmentRule (§3) — a named trigger
condition and a reviewer → signed weight delta map. -/
structure WeightAdjustmentRule where
  trigger : String
  deltas : List (String × ℚ)

/-- Modelled from the spec: the FinalDecision record (§3). -/
structure FinalDecision where
  approved : Bool
  vote : Vote
  weighted_score : ℚ
  confidence : ℚ
  overridden_by : Option String
  deriving DecidableEq, Repr

/-- Modelled from the spec: the recognized configuration options of
`StartDebate` (§6), with the spec's defaults. -/
structure Config where
  quorum_fraction : ℚ := 3 / 5
  max_turns : Nat := 12
  check_interval : Nat := 3
  convergence_threshold : ℚ := 3 / 4

/-- The default configuration. -/
def defaultConfig : Config := {}

/-! ### ScoringEngine -/

/-- Modelled from the spec: hard rules are evaluated in fixed priority
order (§3, §4.4); this sorts a rule list by ascending priority. -/
def prioritySorted (rules : List HardRule) : List HardRule :=
  rules.mergeSort (fun a b => a.priority ≤ b.priority)

/-- Modelled from the spec: the first hard rule, in priority order, whose
predicate matches the Opinion set (§4.4 step 1, first match wins). -/
def firstMatchingRule (rules : List HardRule) (ops : List Opinion) :
    Option HardRule :=
  (prioritySorted rules).find? (fun r => r.predicate ops)

/-- Modelled from the spec: of two opinions by the same reviewer, the one
from the later round supersedes (§3: superseded by a later Opinion from
the same reviewer in a later round). -/
def laterOpinion (a b : Opinion) : Opinion :=
  if a.round ≤ b.round then b else a

/-- Modelled from the spec: the final-round Opinion of one reviewer —
the latest-round entry for that reviewer in the transcript. -/
def finalOpinion (transcript : List Opinion) (rid : String) : Option Opinion :=
  match transcript.filter (fun op => op.reviewer_id == rid) with
  | [] => none
  | op :: rest => some (rest.foldl laterOpinion op)

/-- Modelled from the spec: `dynamic_weight_i = max(0, base_weight_i +
Σ matching WeightAdjustmentRule deltas)` (§4.4 step 2); a rule matches
when its trigger is among the active context conditions. -/
def dynamicWeight (warules : List WeightAdjustmentRule)
    (context : List String) (r : Reviewer) : ℚ :=
  max 0 (r.base_weight +
    ((warules.filter (fun w => context.contains w.trigger)).map
      (fun w => ((w.deltas.filter (fun d => d.1 == r.id)).map
        (fun d => d.2)).sum)).sum)

/-- Whether a reviewer has a non-abstain final-round Opinion. -/
def hasFinalNonAbstain (transcript : List Opinion) (r : Reviewer) : Bool :=
  match finalOpinion transcript r.id with
  | some op => op.vote.isSome && op.score.isSome
  | none => false

/-- The score of a reviewer's final-round Opinion (0 when absent; only
evaluated on reviewers passing `hasFinalNonAbstain`). -/
def participantScore (transcript : List Opinion) (r : Reviewer) : ℚ :=
  match finalOpinion transcript r.id with
  | some op => op.score.getD 0
  | none => 0

/-- Modelled from the spec: the reviewers contributing to the weighted
score — exactly those with a non-abstain final-round Opinion (§4.4
step 2) — as (dynamic weight, score) pairs. -/
def participants (roster : List Reviewer) (transcript : List Opinion)
    (warules : List WeightAdjustmentRule) (context : List String) :
    List (ℚ × ℚ) :=
  (roster.filter (hasFinalNonAbstain transcript)).map
    (fun r => (dynamicWeight warules context r, participantScore transcript r))

/-- Modelled from the spec: `weighted_score =
Σ(dynamic_weight_i * score_i) / Σ(dynamic_weight_i)` (§4.4 step 2). -/
def weightedScoreOf (ps : List (ℚ × ℚ)) : ℚ :=
  ((ps.map (fun p => p.1 * p.2)).sum) / ((ps.map Prod.fst).sum)

/-- Modelled from the spec: decision thresholds (§4.4 step 3):
score ≥ 75 → approve, 40 ≤ score < 75 → conditional, < 40 → reject. -/
def voteOfScore (ws : ℚ) : Vote :=
  if 75 ≤ ws then .approve
  else if 40 ≤ ws then .conditional
  else .reject

/-- Modelled from the spec: the ScoringEngine (§4.4).  Hard rules are
evaluated first in priority order; a match short-circuits with
approved = false, the rule's id and confidence 1.  Otherwise the weighted
score is computed over the non-abstain final-round participants and mapped
through the decision thresholds; confidence is the consensus level of the
last convergence evaluation, supplied by the session. -/
def scoringEngine (roster : List Reviewer) (transcript : List Opinion)
    (rules : List HardRule) (warules : List WeightAdjustmentRule)
    (context : List String) (consensus : ℚ) : FinalDecision :=
  let ws := weightedScoreOf (participants roster transcript warules context)
  match firstMatchingRule rules transcript with
  | some r =>
      { approved := false, vote := .reject, weighted_score := ws,
        confidence := 1, overridden_by := some r.id }
  | none =>
      { approved := voteOfScore ws == .approve, vote := voteOfScore ws,
        weighted_score := ws, confidence := consensus, overridden_by := none }

/-! ### ConvergenceDetector -/

/-- Modelled from the spec: the plurality vote, ties broken toward the
lowest ordinal (reject = 0 < conditional = 1 < approve = 2); a candidate
replaces the incumbent only with a strictly larger count, so among tied
counts the lowest ordinal wins (§4.2, §9). -/
def pluralityVote (votes : List Vote) : Vote :=
  [Vote.conditional, Vote.approve].foldl
    (fun best v => if votes.count best < votes.count v then v else best)
    Vote.reject

/-- Modelled from the spec: `consensus_level =
count(votes == plurality_vote) / total_responding_reviewers` (§4.3). -/
def consensusLevel (votes : List Vote) : ℚ :=
  (votes.count (pluralityVote votes) : ℚ) / (votes.length : ℚ)

/-- Modelled from the spec: the ConvergenceDetector (§4.3), evaluated
every `check_interval` turns starting from turn `check_interval`; it
reports converged at turn `t` iff a check occurs at `t` (so at least one
check has occurred) and the consensus level meets the threshold. -/
def convergedAt (cfg : Config) (votes : List Vote) (t : Nat) : Bool :=
  decide (t % cfg.check_interval = 0) && decide (cfg.check_interval ≤ t) &&
    decide (cfg.convergence_threshold ≤ consensusLevel votes)

/-! ### SpeakerSelector -/

/-- Modelled from the spec: seeded uniform random choice from a list
(§4.2 step 3) — a seedable RNG reduced to indexing by the seed. -/
def seededChoice (seed : Nat) (l : List String) : Option String :=
  l.get? (seed % l.length)

/-- The vote currently held by a reviewer, from the vote-by-reviewer map. -/
def currentVote (votes : List (String × Vote)) (rid : String) : Option Vote :=
  (votes.find? (fun p => p.1 == rid)).map Prod.snd

/-- Modelled from the spec: a dissenter is a reviewer whose current vote
differs from the plurality vote (§4.2 step 1). -/
def isDissenter (votes : List (String × Vote)) (rid : String) : Bool :=
  match currentVote votes rid with
  | some v => v ≠ pluralityVote (votes.map Prod.snd)
  | none => false

/-- The turn count of a reviewer, from the per-reviewer turn-count map. -/
def turnCount (counts : List (String × Nat)) (rid : String) : Nat :=
  ((counts.find? (fun p => p.1 == rid)).map Prod.snd).getD 0

/-- Modelled from the spec: an under-participant has a turn count below
the roster average (§4.2 step 2). -/
def underAverage (counts : List (String × Nat)) (roster : List String)
    (rid : String) : Bool :=
  decide ((turnCount counts rid : ℚ) <
    ((roster.map (turnCount counts)).sum : ℚ) / (roster.length : ℚ))

/-- Modelled from the spec: the reviewers eligible to speak (§4.2) — the
reviewers ≠ last_speaker, except that when fewer than two such reviewers
remain the ≠ last_speaker constraint is relaxed to the whole roster
rather than deadlocking. -/
def eligiblePool (roster : List String) (last_speaker : Option String) :
    List String :=
  let nonLast := roster.filter (fun r => last_speaker ≠ some r)
  if 2 ≤ nonLast.length then nonLast else roster

/-- Modelled from the spec: the SpeakerSelector (§4.2).  Within the
eligible pool: dissenters first, then under-participants, then the
remaining eligible reviewers by seeded choice. -/
def selectSpeaker (roster : List String) (votes : List (String × Vote))
    (last_speaker : Option String) (counts : List (String × Nat))
    (seed : Nat) : Option String :=
  if (eligiblePool roster last_speaker).filter (isDissenter votes) ≠ [] then
    seededChoice seed
      ((eligiblePool roster last_speaker).filter (isDissenter votes))
  else if (eligiblePool roster last_speaker).filter
      (underAverage counts roster) ≠ [] then
    seededChoice seed
      ((eligiblePool roster last_speaker).filter (underAverage counts roster))
  else seededChoice seed (eligiblePool roster last_speaker)

/-! ### DebateSession quorum handling / StartDebate -/

/-- Modelled from the spec: the errors surfaced to the caller as a failed
StartDebate call (§7): InsufficientQuorum and ConfigurationError. -/
inductive DebateError where
  | InsufficientQuorum
  | ConfigurationError
  deriving DecidableEq, Repr

/-- Whether a reviewer produced a (non-abstain) response in
INITIAL_REACTIONS: some round-0 Opinion of theirs carries a vote. -/
def responded (responses : List Opinion) (r : Reviewer) : Bool :=
  responses.any (fun op => op.reviewer_id == r.id && op.round == 0 &&
    op.vote.isSome)

/-- The number of roster reviewers that responded in INITIAL_REACTIONS. -/
def respondersCount (roster : List Reviewer) (responses : List Opinion) : Nat :=
  (roster.filter (responded responses)).length

/-- Modelled from the spec: the quorum test (§4.1): the session proceeds
iff at least `quorum_fraction` of the roster responded (exactly the
fraction counts as met). -/
def quorumMet (cfg : Config) (roster : List Reviewer)
    (responses : List Opinion) : Bool :=
  decide (cfg.quorum_fraction * (roster.length : ℚ) ≤
    (respondersCount roster responses : ℚ))

/-- Roster validation at session start (§4.1, §7): non-empty roster, all
base weights ≥ 0; otherwise ConfigurationError. -/
def validRoster (roster : List Reviewer) : Bool :=
  !roster.isEmpty && roster.all (fun r => 0 ≤ r.base_weight)

/-- Modelled from the spec: the caller-facing StartDebate pipeline (§4.1,
§6, §7) reduced to its error path: ConfigurationError at session start on
an invalid roster, InsufficientQuorum when INITIAL_REACTIONS ends below
quorum, and otherwise the FinalDecision produced by the ScoringEngine on
the full transcript. -/
def startDebate (cfg : Config) (roster : List Reviewer)
    (responses : List Opinion) (transcript : List Opinion)
    (rules : List HardRule) (warules : List WeightAdjustmentRule)
    (context : List String) (consensus : ℚ) :
    Except DebateError FinalDecision :=
  if !validRoster roster then .error .ConfigurationError
  else if !quorumMet cfg roster responses then .error .InsufficientQuorum
  else .ok (scoringEngine roster transcript rules warules context consensus)

/-- Modelled from the spec: the debate phases (§3). -/
inductive Phase where
  | INTAKE
  | INITIAL_REACTIONS
  | OPEN_FLOOR
  | ARBITRATION
  | DONE
  deriving DecidableEq, Repr

/-- Modelled from the spec: the phase reached after INITIAL_REACTIONS
(§4.1): OPEN_FLOOR when quorum is met, otherwise the session fails. -/
def phaseAfterInitial (cfg : Config) (roster : List Reviewer)
    (responses : List Opinion) : Except DebateError Phase :=
  if quorumMet cfg roster responses then .ok .OPEN_FLOOR
  else .error .InsufficientQuorum

/-! ## Part II: frontend code present in the source tree -/

/-! ### `displayDebates` (Minimal_Version/static/js/scripts.js) -/

namespace Scripts

/-- A debate entry as consumed by `displayDebates` / `renderDebateCard`:
the fields the card renders. -/
structure Debate where
  agent_name : String
  agent_role : String
  vote : String
  score : Option ℚ
  deriving DecidableEq, Repr

/-- The fixed agent order of `displayDebates`. -/
def agentOrder : List String :=
  ["TrendAgent", "BrandAgent", "ComplianceAgent", "RiskAgent",
   "EngagementAgent", "CMOAgent"]

/-- The `groupedDebates` map of `displayDebates`: the `forEach` assigns
`groupedDebates[name]` only when unset, so each name maps to the first
entry for it in list order. -/
def groupedDebates (debates : List Debate) (name : String) : Option Debate :=
  debates.find? (fun d => d.agent_name == name)

/-- The cards rendered by `displayDebates`, in order:
`agentOrder.filter(name => grouped[name]).map(name => card(grouped[name]))`. -/
def displayDebates (debates : List Debate) : List Debate :=
  agentOrder.filterMap (groupedDebates debates)

end Scripts

/-! ### `ChatPanel` message merge (frontend ChatPanel component) -/

namespace ChatPanel

/-- The `WebSocketMessage` union of `types/api.ts`; timestamps are epoch
milliseconds as produced by `new Date(...).getTime()`. -/
inductive WebSocketMessage where
  | agentThinking (agent_id agent_name content : String) (step : Option String)
      (timestamp : Int)
  | agentStatus (agent_id agent_name status : String) (progress : Option ℚ)
      (timestamp : Int)
  | debate (agent_id agent_name position : String)
      (responding_to : Option String) (debate_round : Option Nat)
      (timestamp : Int)
  | decision (decision : String) (confidence : Option ℚ)
      (consensus_level : Option String) (timestamp : Int)
  | system (level message : String) (timestamp : Int)
  | councilStart (session_id topic : String) (agents : List String)
      (timestamp : Int)
  | councilEnd (session_id : String) (duration_seconds : Option ℚ)
      (outcome : String) (timestamp : Int)
  deriving DecidableEq, Repr

/-- The `type` discriminator field of a `WebSocketMessage`. -/
def WebSocketMessage.type : WebSocketMessage → String
  | .agentThinking .. => "agent_thinking"
  | .agentStatus .. => "agent_status"
  | .debate .. => "debate"
  | .decision .. => "decision"
  | .system .. => "system"
  | .councilStart .. => "council_start"
  | .councilEnd .. => "council_end"

/-- The `timestamp` field of a `WebSocketMessage`. -/
def WebSocketMessage.timestamp : WebSocketMessage → Int
  | .agentThinking _ _ _ _ t => t
  | .agentStatus _ _ _ _ t => t
  | .debate _ _ _ _ _ t => t
  | .decision _ _ _ t => t
  | .system _ _ t => t
  | .councilStart _ _ _ t => t
  | .councilEnd _ _ _ t => t

/-- A fetched chat-history message (`ChatMessage` of `types/api.ts`),
restricted to the fields `ChatPanel` reads. -/
structure ChatMessage where
  id : String
  content : String
  user_name : String
  timestamp : Int
  deriving DecidableEq, Repr

/-- A display-list entry built by `ChatPanel`. -/
structure DisplayMessage where
  id : String
  agent : String
  message : String
  isUser : Bool
  timestamp : Int
  deriving DecidableEq, Repr

/-- The `ChatPanel` WebSocket filter: keep `agent_thinking`, `debate` and
`system` messages. -/
def keepWs (m : WebSocketMessage) : Bool :=
  m.type == "agent_thinking" || m.type == "debate" || m.type == "system"

/-- `'agent_name' in msg ? msg.agent_name : 'System'`. -/
def wsAgent : WebSocketMessage → String
  | .agentThinking _ n _ _ _ => n
  | .agentStatus _ n _ _ _ => n
  | .debate _ n _ _ _ _ => n
  | _ => "System"

/-- The per-type message text selected by `ChatPanel`. -/
def wsText : WebSocketMessage → String
  | .agentThinking _ _ c _ _ => c
  | .debate _ _ p _ _ _ => p
  | .system _ m _ => m
  | _ => ""

/-- A chat-history message mapped to a display entry. -/
def chatToDisplay (m : ChatMessage) : DisplayMessage :=
  { id := m.id, agent := m.user_name, message := m.content, isUser := true,
    timestamp := m.timestamp }

/-- A kept WebSocket message, at index `idx` of the filtered list, mapped
to a display entry. -/
def wsToDisplay (idx : Nat) (m : WebSocketMessage) : DisplayMessage :=
  { id := "ws-" ++ toString idx, agent := wsAgent m, message := wsText m,
    isUser := false, timestamp := m.timestamp }

/-- The display comparator: the JS sort by
`new Date(a.timestamp).getTime() - new Date(b.timestamp).getTime()`. -/
def byTimestamp (a b : DisplayMessage) : Bool :=
  a.timestamp ≤ b.timestamp

/-- The `allMessages` list of `ChatPanel`: chat history mapped, kept
WebSocket messages mapped with their filtered index, concatenated and
sorted by timestamp (JS `Array.prototype.sort` is a stable sort). -/
def allMessages (chat : List ChatMessage) (ws : List WebSocketMessage) :
    List DisplayMessage :=
  ((chat.map chatToDisplay) ++
    ((ws.filter keepWs).enum.map (fun p => wsToDisplay p.1 p.2))).mergeSort
    byTimestamp

end ChatPanel

/-! ### `useWebSocket` reconnect logic (frontend WebSocket hook) -/

namespace Hook

/-- The default `maxReconnectAttempts` of `useWebSocket`. -/
def maxReconnectAttemptsDefault : Nat := 5

/-- The mutable refs and state of `useWebSocket` that the reconnect logic
touches: `reconnectAttemptsRef`, `shouldReconnectRef`, a pending
`reconnectTimeoutRef` timer, `isConnected` and `error`. -/
structure WSState where
  attempts : Nat
  shouldReconnect : Bool
  pending : Bool
  isConnected : Bool
  error : Option String
  deriving DecidableEq, Repr

/-- The state after mount (`autoConnect`): no attempts, reconnection
enabled, nothing scheduled. -/
def initialState : WSState :=
  { attempts := 0, shouldReconnect := true, pending := false,
    isConnected := false, error := none }

/-- The externally visible events acting on the hook's reconnect state:
the socket's `onopen`, its `onclose`, and a `disconnect()` call. -/
inductive WSEvent where
  | onOpen
  | onClose
  | disconnectCall
  deriving DecidableEq, Repr

/-- One event step.  Returns the new state and whether this event
scheduled a reconnection attempt (`setTimeout(connect, ...)`).
`onopen` resets the attempt counter and clears the error; `onclose`
schedules a reconnect and increments the counter when reconnection is
enabled and the counter is below the limit, and otherwise sets the
max-attempts error when the counter has reached the limit;
`disconnect()` disables reconnection and clears any pending timer. -/
def wsStep (maxAttempts : Nat) (s : WSState) : WSEvent → WSState × Bool
  | .onOpen =>
      ({ s with isConnected := true, error := none, attempts := 0,
                pending := false }, false)
  | .onClose =>
      if s.shouldReconnect && decide (s.attempts < maxAttempts) then
        ({ s with isConnected := false, attempts := s.attempts + 1,
                  pending := true }, true)
      else if decide (maxAttempts ≤ s.attempts) then
        ({ s with isConnected := false,
                  error := some "Max reconnection attempts reached" }, false)
      else ({ s with isConnected := false }, false)
  | .disconnectCall =>
      ({ s with shouldReconnect := false, pending := false,
                isConnected := false }, false)

/-- Run a sequence of events from a state. -/
def wsRun (maxAttempts : Nat) (s : WSState) : List WSEvent → WSState
  | [] => s
  | e :: evs => wsRun maxAttempts (wsStep maxAttempts s e).1 evs

/-- Run a sequence of events, counting how many reconnection attempts get
scheduled along the way. -/
def wsSchedCount (maxAttempts : Nat) (s : WSState) : List WSEvent → Nat
  | [] => 0
  | e :: evs =>
      (if (wsStep maxAttempts s e).2 then 1 else 0) +
        wsSchedCount maxAttempts (wsStep maxAttempts s e).1 evs

end Hook

/-! ## Theorems -/

/-- C7: with 5 equally weighted reviewers and phase-1 opinions
approve(90), conditional(70), reject(40), reject(45), approve(80), the
2–2 approve/reject plurality tie is broken to reject (the lower ordinal),
the consensus level is 40%, the debate is not converged at any turn, and
the session proceeds to OPEN_FLOOR. -/
theorem c7_scenario_a :
    pluralityVote [Vote.approve, Vote.conditional, Vote.reject, Vote.reject,
      Vote.approve] = Vote.reject ∧
    consensusLevel [Vote.approve, Vote.conditional, Vote.reject, Vote.reject,
      Vote.approve] = 2 / 5 ∧
    (∀ t : Nat, convergedAt defaultConfig
      [Vote.approve, Vote.conditional, Vote.reject, Vote.reject,
        Vote.approve] t = false) ∧
    phaseAfterInitial defaultConfig
      [⟨"trend", 1/4⟩, ⟨"brand", 1/4⟩, ⟨"compliance", 1/4⟩, ⟨"risk", 1/4⟩,
        ⟨"engagement", 1/4⟩]
      [⟨"trend", 0, some .approve, some 90⟩,
       ⟨"brand", 0, some .conditional, some 70⟩,
       ⟨"compliance", 0, some .reject, some 40⟩,
       ⟨"risk", 0, some .reject, some 45⟩,
       ⟨"engagement", 0, some .approve, some 80⟩] = .ok .OPEN_FLOOR := by
  have hp : pluralityVote [Vote.approve, Vote.conditional, Vote.reject,
      Vote.reject, Vote.approve] = Vote.reject := by decide
  have hc : consensusLevel [Vote.approve, Vote.conditional, Vote.reject,
      Vote.reject, Vote.approve] = 2 / 5 := by
    have hcount : List.count Vote.reject [Vote.approve, Vote.conditional,
        Vote.reject, Vote.reject, Vote.approve] = 2 := by decide
    unfold consensusLevel
    rw [hp, hcount]
    norm_num
  refine ⟨hp, hc, ?_, ?_⟩
  · intro t
    have hthr : ¬ ((3 / 4 : ℚ) ≤ consensusLevel [Vote.approve,
        Vote.conditional, Vote.reject, Vote.reject, Vote.approve]) := by
      rw [hc]; norm_num
    simp [convergedAt, defaultConfig, hthr]
  · have hq : quorumMet defaultConfig
        [⟨"trend", 1/4⟩, ⟨"brand", 1/4⟩, ⟨"compliance", 1/4⟩, ⟨"risk", 1/4⟩,
          ⟨"engagement", 1/4⟩]
        [⟨"trend", 0, some .approve, some 90⟩,
         ⟨"brand", 0, some .conditional, some 70⟩,
         ⟨"compliance", 0, some .reject, some 40⟩,
         ⟨"risk", 0, some .reject, some 45⟩,
         ⟨"engagement", 0, some .approve, some 80⟩] = true := by
      have hr : respondersCount
          [⟨"trend", 1/4⟩, ⟨"brand", 1/4⟩, ⟨"compliance", 1/4⟩,
            ⟨"risk", 1/4⟩, ⟨"engagement", 1/4⟩]
          [⟨"trend", 0, some .approve, some 90⟩,
           ⟨"brand", 0, some .conditional, some 70⟩,
           ⟨"compliance", 0, some .reject, some 40⟩,
           ⟨"risk", 0, some .reject, some 45⟩,
           ⟨"engagement", 0, some .approve, some 80⟩] = 5 := by
        simp [respondersCount, responded]
      simp only [quorumMet, hr]
      norm_num [defaultConfig]
    unfold phaseAfterInitial
    rw [hq]
    rfl

/-- C3: with the default configuration the ConvergenceDetector reports
converged at turn `t` exactly when a check occurs at `t` (a multiple of
check_interval = 3, with at least one check having occurred, so `t ≥ 3`)
and the consensus level — the plurality count over the responding
reviewers — is at least 3/4; in particular it never reports converged
before turn 3. -/
theorem c3_convergence_detector (votes : List Vote) (t : Nat) :
    (convergedAt defaultConfig votes t = true ↔
      t % 3 = 0 ∧ 3 ≤ t ∧ (3 / 4 : ℚ) ≤ consensusLevel votes) ∧
    consensusLevel votes =
      ((votes.count (pluralityVote votes) : ℚ) / (votes.length : ℚ)) ∧
    (t < 3 → convergedAt defaultConfig votes t = false) := by
  have hiff : convergedAt defaultConfig votes t = true ↔
      t % 3 = 0 ∧ 3 ≤ t ∧ (3 / 4 : ℚ) ≤ consensusLevel votes := by
    simp [convergedAt, defaultConfig, and_assoc]
  refine ⟨hiff, rfl, ?_⟩
  intro hlt
  rcases h : convergedAt defaultConfig votes t with _ | _
  · rfl
  · exact absurd (hiff.mp h).2.1 (by omega)

/-- C3 witness: a concrete run is not converged at turn 2 even with
unanimous votes. -/
theorem c3_witness :
    convergedAt defaultConfig [Vote.approve, Vote.approve] 2 = false :=
  (c3_convergence_detector [Vote.approve, Vote.approve] 2).2.2 (by decide)

/-- C1: if any HardRule predicate matches the Opinion set, the
ScoringEngine returns approved = false, overridden_by the id of the first
matching rule in priority order, and confidence 1 — regardless of the
weighted score. -/
theorem c1_hard_rule_supremacy (roster : List Reviewer)
    (transcript : List Opinion) (rules : List HardRule)
    (warules : List WeightAdjustmentRule) (context : List String)
    (consensus : ℚ)
    (h : ∃ r ∈ rules, r.predicate transcript = true) :
    ∃ r, firstMatchingRule rules transcript = some r ∧
      r.predicate transcript = true ∧
      scoringEngine roster transcript rules warules context consensus =
        { approved := false, vote := .reject,
          weighted_score :=
            weightedScoreOf (participants roster transcript warules context),
          confidence := 1, overridden_by := some r.id } := by
  obtain ⟨r0, hmem, hpred⟩ := h
  have hmem' : r0 ∈ prioritySorted rules :=
    ((List.mergeSort_perm rules
      (fun a b => a.priority ≤ b.priority)).mem_iff).mpr hmem
  have hsome : ((prioritySorted rules).find?
      (fun r => r.predicate transcript)).isSome :=
    List.find?_isSome.mpr ⟨r0, hmem', hpred⟩
  obtain ⟨r, hr⟩ := Option.isSome_iff_exists.mp hsome
  have hfmr : firstMatchingRule rules transcript = some r := hr
  have hpr := List.find?_some hr
  refine ⟨r, hfmr, hpr, ?_⟩
  simp only [scoringEngine, hfmr]

/-- C1 witness: a concrete risk hard rule fires on a transcript holding a
score above 75, forcing rejection with confidence 1. -/
theorem c1_witness :
    ∃ r, firstMatchingRule
        [⟨"risk-hard-rule", 1,
          fun ops => ops.any (fun op => decide ((75 : ℚ) < op.score.getD 0))⟩]
        [⟨"risk", 0, some .reject, some 80⟩] = some r ∧
      r.predicate [⟨"risk", 0, some .reject, some 80⟩] = true ∧
      scoringEngine [⟨"risk", 1⟩] [⟨"risk", 0, some .reject, some 80⟩]
        [⟨"risk-hard-rule", 1,
          fun ops => ops.any (fun op => decide ((75 : ℚ) < op.score.getD 0))⟩]
        [] [] (1 / 2) =
        { approved := false, vote := .reject,
          weighted_score := weightedScoreOf (participants [⟨"risk", 1⟩]
            [⟨"risk", 0, some .reject, some 80⟩] [] []),
          confidence := 1, overridden_by := some r.id } :=
  c1_hard_rule_supremacy [⟨"risk", 1⟩] [⟨"risk", 0, some .reject, some 80⟩]
    [⟨"risk-hard-rule", 1,
      fun ops => ops.any (fun op => decide ((75 : ℚ) < op.score.getD 0))⟩]
    [] [] (1 / 2)
    ⟨⟨"risk-hard-rule", 1,
      fun ops => ops.any (fun op => decide ((75 : ℚ) < op.score.getD 0))⟩,
      by simp, by norm_num⟩

/-- Decision thresholds unfolded: the vote assigned to a weighted score. -/
theorem voteOfScore_iffs (ws : ℚ) :
    (voteOfScore ws = Vote.approve ↔ 75 ≤ ws) ∧
    (voteOfScore ws = Vote.conditional ↔ 40 ≤ ws ∧ ws < 75) ∧
    (voteOfScore ws = Vote.reject ↔ ws < 40) := by
  unfold voteOfScore
  split_ifs with h1 h2
  · refine ⟨iff_of_true rfl h1, iff_of_false (by decide) ?_,
      iff_of_false (by decide) (by linarith)⟩
    rintro ⟨-, hlt⟩
    linarith
  · exact ⟨iff_of_false (by decide) h1,
      iff_of_true rfl ⟨h2, not_le.mp h1⟩,
      iff_of_false (by decide) (not_lt.mpr h2)⟩
  · refine ⟨iff_of_false (by decide) h1, iff_of_false (by decide) ?_,
      iff_of_true rfl (not_le.mp h2)⟩
    rintro ⟨h40, -⟩
    exact h2 h40

/-- C2: when no hard rule matches, the weighted score is
Σ(dynamic_weight·score)/Σ(dynamic_weight) over exactly the reviewers with
a non-abstain final-round Opinion, with dynamic_weight =
max(0, base_weight + Σ matching adjustment deltas), and the vote is
approve iff score ≥ 75, conditional iff 40 ≤ score < 75, reject iff
score < 40. -/
theorem c2_weighted_score (roster : List Reviewer) (transcript : List Opinion)
    (rules : List HardRule) (warules : List WeightAdjustmentRule)
    (context : List String) (consensus : ℚ)
    (h : firstMatchingRule rules transcript = none) :
    (scoringEngine roster transcript rules warules context
        consensus).weighted_score =
      ((roster.filter (hasFinalNonAbstain transcript)).map
        (fun r => dynamicWeight warules context r *
          participantScore transcript r)).sum /
      ((roster.filter (hasFinalNonAbstain transcript)).map
        (fun r => dynamicWeight warules context r)).sum ∧
    (∀ r : Reviewer, dynamicWeight warules context r =
      max 0 (r.base_weight +
        ((warules.filter (fun w => context.contains w.trigger)).map
          (fun w => ((w.deltas.filter (fun d => d.1 == r.id)).map
            (fun d => d.2)).sum)).sum)) ∧
    ((scoringEngine roster transcript rules warules context
        consensus).vote = Vote.approve ↔
      75 ≤ (scoringEngine roster transcript rules warules context
        consensus).weighted_score) ∧
    ((scoringEngine roster transcript rules warules context
        consensus).vote = Vote.conditional ↔
      40 ≤ (scoringEngine roster transcript rules warules context
        consensus).weighted_score ∧
      (scoringEngine roster transcript rules warules context
        consensus).weighted_score < 75) ∧
    ((scoringEngine roster transcript rules warules context
        consensus).vote = Vote.reject ↔
      (scoringEngine roster transcript rules warules context
        consensus).weighted_score < 40) := by
  have hws : (scoringEngine roster transcript rules warules context
      consensus).weighted_score =
      weightedScoreOf (participants roster transcript warules context) := by
    simp only [scoringEngine, h]
  have hvote : (scoringEngine roster transcript rules warules context
      consensus).vote =
      voteOfScore (weightedScoreOf
        (participants roster transcript warules context)) := by
    simp only [scoringEngine, h]
  obtain ⟨hA, hC, hR⟩ :=
    voteOfScore_iffs (weightedScoreOf
      (participants roster transcript warules context))
  refine ⟨?_, fun r => rfl, ?_, ?_, ?_⟩
  · rw [hws]
    unfold weightedScoreOf participants
    rw [List.map_map, List.map_map]
    rfl
  · rw [hws, hvote]; exact hA
  · rw [hws, hvote]; exact hC
  · rw [hws, hvote]; exact hR

/-- C2 witness: with no hard rules configured, a single reviewer of
weight 1 and score 80 yields that reviewer's weighted score and the
threshold characterization at a concrete decision. -/
theorem c2_witness :
    (scoringEngine [⟨"risk", 1⟩] [⟨"risk", 0, some .reject, some 80⟩]
        [] [] [] (1 / 2)).weighted_score =
      (([⟨"risk", 1⟩] : List Reviewer).filter
        (hasFinalNonAbstain [⟨"risk", 0, some .reject, some 80⟩]) |>.map
        (fun r => dynamicWeight [] [] r *
          participantScore [⟨"risk", 0, some .reject, some 80⟩] r)).sum /
      (([⟨"risk", 1⟩] : List Reviewer).filter
        (hasFinalNonAbstain [⟨"risk", 0, some .reject, some 80⟩]) |>.map
        (fun r => dynamicWeight [] [] r)).sum ∧
    ((scoringEngine [⟨"risk", 1⟩] [⟨"risk", 0, some .reject, some 80⟩]
        [] [] [] (1 / 2)).vote = Vote.approve ↔
      75 ≤ (scoringEngine [⟨"risk", 1⟩]
        [⟨"risk", 0, some .reject, some 80⟩] [] [] [] (1 / 2)).weighted_score) :=
  ⟨(c2_weighted_score [⟨"risk", 1⟩] [⟨"risk", 0, some .reject, some 80⟩]
      [] [] [] (1 / 2) (by simp [firstMatchingRule, prioritySorted])).1,
   (c2_weighted_score [⟨"risk", 1⟩] [⟨"risk", 0, some .reject, some 80⟩]
      [] [] [] (1 / 2) (by simp [firstMatchingRule, prioritySorted])).2.2.1⟩

/-- A seeded choice from a non-empty list yields some member of it. -/
theorem seededChoice_mem (seed : Nat) (l : List String) (h : l ≠ []) :
    ∃ x ∈ l, seededChoice seed l = some x := by
  have hlen : 0 < l.length := List.length_pos.mpr h
  have hmod : seed % l.length < l.length := Nat.mod_lt _ hlen
  refine ⟨l.get ⟨seed % l.length, hmod⟩, List.get_mem _ _ _, ?_⟩
  simp [seededChoice, List.get?_eq_get hmod]

/-- A successful seeded choice is a member of the list chosen from. -/
theorem seededChoice_mem_of_eq {seed : Nat} {l : List String} {r : String}
    (h : seededChoice seed l = some r) : r ∈ l := by
  unfold seededChoice at h
  exact List.get?_mem h

/-- C4: the SpeakerSelector picks only from the eligible pool (reviewers
≠ last_speaker, relaxed to the roster when fewer than two remain); with
at least two reviewers other than last_speaker it never returns
last_speaker; dissenters from the plurality vote have first priority,
then reviewers below the average turn count, then any eligible reviewer
by seeded choice; on a non-empty roster it always returns a speaker. -/
theorem c4_speaker_selector (roster : List String)
    (votes : List (String × Vote)) (last_speaker : Option String)
    (counts : List (String × Nat)) (seed : Nat) :
    (∀ r, selectSpeaker roster votes last_speaker counts seed = some r →
      r ∈ eligiblePool roster last_speaker) ∧
    (2 ≤ (roster.filter (fun x => last_speaker ≠ some x)).length →
      ∀ r, selectSpeaker roster votes last_speaker counts seed = some r →
        last_speaker ≠ some r) ∧
    ((eligiblePool roster last_speaker).filter (isDissenter votes) ≠ [] →
      ∃ r, selectSpeaker roster votes last_speaker counts seed = some r ∧
        isDissenter votes r = true) ∧
    ((eligiblePool roster last_speaker).filter (isDissenter votes) = [] →
      (eligiblePool roster last_speaker).filter
        (underAverage counts roster) ≠ [] →
      ∃ r, selectSpeaker roster votes last_speaker counts seed = some r ∧
        underAverage counts roster r = true) ∧
    (roster ≠ [] →
      (selectSpeaker roster votes last_speaker counts seed).isSome) := by
  have hpool_sub : ∀ r, r ∈ eligiblePool roster last_speaker → r ∈ roster := by
    intro r hr
    unfold eligiblePool at hr
    by_cases h2 : 2 ≤ (roster.filter (fun x => last_speaker ≠ some x)).length
    · rw [if_pos h2] at hr
      exact (List.mem_filter.mp hr).1
    · rwa [if_neg h2] at hr
  have hmem : ∀ r, selectSpeaker roster votes last_speaker counts seed =
      some r → r ∈ eligiblePool roster last_speaker := by
    intro r hr
    unfold selectSpeaker at hr
    split_ifs at hr with hd hu
    · exact (List.mem_filter.mp (seededChoice_mem_of_eq hr)).1
    · exact (List.mem_filter.mp (seededChoice_mem_of_eq hr)).1
    · exact seededChoice_mem_of_eq hr
  refine ⟨hmem, ?_, ?_, ?_, ?_⟩
  · intro h2 r hr
    have hin : r ∈ eligiblePool roster last_speaker := hmem r hr
    unfold eligiblePool at hin
    rw [if_pos h2] at hin
    have := (List.mem_filter.mp hin).2
    exact of_decide_eq_true this
  · intro hd
    obtain ⟨x, hx, hsel⟩ := seededChoice_mem seed _ hd
    refine ⟨x, ?_, (List.mem_filter.mp hx).2⟩
    unfold selectSpeaker
    rw [if_pos hd]
    exact hsel
  · intro hd hu
    obtain ⟨x, hx, hsel⟩ := seededChoice_mem seed _ hu
    refine ⟨x, ?_, (List.mem_filter.mp hx).2⟩
    unfold selectSpeaker
    rw [if_neg (by simpa using hd), if_pos hu]
    exact hsel
  · intro hne
    have hpoolne : eligiblePool roster last_speaker ≠ [] := by
      unfold eligiblePool
      by_cases h2 : 2 ≤ (roster.filter (fun x => last_speaker ≠ some x)).length
      · rw [if_pos h2]
        intro hemp
        rw [hemp] at h2
        simp at h2
      · rwa [if_neg h2]
    unfold selectSpeaker
    split_ifs with hd hu
    · obtain ⟨x, _, hsel⟩ := seededChoice_mem seed _ hd
      simp [hsel]
    · obtain ⟨x, _, hsel⟩ := seededChoice_mem seed _ hu
      simp [hsel]
    · obtain ⟨x, _, hsel⟩ := seededChoice_mem seed _ hpoolne
      simp [hsel]

/-- C4 witness: with roster [a, b, c], b the last speaker and everyone
voting alike with equal turn counts, a speaker other than b is chosen. -/
theorem c4_witness :
    ∃ r, selectSpeaker ["a", "b", "c"]
        [("a", Vote.approve), ("b", Vote.approve), ("c", Vote.approve)]
        (some "b") [("a", 1), ("b", 1), ("c", 1)] 0 = some r ∧
      ("b" : String) ≠ r := by
  have h2 : 2 ≤ ((["a", "b", "c"] : List String).filter
      (fun x => (some "b" : Option String) ≠ some x)).length := by decide
  have h := (c4_speaker_selector ["a", "b", "c"]
    [("a", Vote.approve), ("b", Vote.approve), ("c", Vote.approve)]
    (some "b") [("a", 1), ("b", 1), ("c", 1)] 0).2.1 h2
  have hsome := (c4_speaker_selector ["a", "b", "c"]
    [("a", Vote.approve), ("b", Vote.approve), ("c", Vote.approve)]
    (some "b") [("a", 1), ("b", 1), ("c", 1)] 0).2.2.2.2 (by decide)
  obtain ⟨r, hr⟩ := Option.isSome_iff_exists.mp hsome
  refine ⟨r, hr, ?_⟩
  intro hbr
  exact h r hr (by rw [hbr])

/-- C5: when INITIAL_REACTIONS ends with strictly fewer responders than
the quorum fraction of the roster, StartDebate fails with
InsufficientQuorum and produces no FinalDecision; at or above the
fraction it returns a decision; and every surfaced error is either
InsufficientQuorum or ConfigurationError. -/
theorem c5_quorum (cfg : Config) (roster : List Reviewer)
    (responses transcript : List Opinion) (rules : List HardRule)
    (warules : List WeightAdjustmentRule) (context : List String)
    (consensus : ℚ) (hvalid : validRoster roster = true) :
    (((respondersCount roster responses : ℚ) <
        cfg.quorum_fraction * (roster.length : ℚ)) →
      startDebate cfg roster responses transcript rules warules context
        consensus = .error .InsufficientQuorum) ∧
    ((cfg.quorum_fraction * (roster.length : ℚ) ≤
        (respondersCount roster responses : ℚ)) →
      ∃ d, startDebate cfg roster responses transcript rules warules context
        consensus = .ok d) ∧
    (∀ e, startDebate cfg roster responses transcript rules warules context
        consensus = .error e →
      e = DebateError.InsufficientQuorum ∨
        e = DebateError.ConfigurationError) := by
  refine ⟨?_, ?_, ?_⟩
  · intro hlt
    have hq : quorumMet cfg roster responses = false := by
      simp [quorumMet, not_le.mpr hlt]
    simp [startDebate, hvalid, hq]
  · intro hle
    have hq : quorumMet cfg roster responses = true := by
      simp [quorumMet, hle]
    refine ⟨scoringEngine roster transcript rules warules context
      consensus, ?_⟩
    simp [startDebate, hvalid, hq]
  · intro e _
    cases e
    · exact Or.inl rfl
    · exact Or.inr rfl

/-- C5 witness: with the default quorum fraction 0.6 and 3 of 5 reviewers
responding (quorum exactly met), the session proceeds to a decision. -/
theorem c5_witness :
    ∃ d, startDebate defaultConfig
      [⟨"r1", 1⟩, ⟨"r2", 1⟩, ⟨"r3", 1⟩, ⟨"r4", 1⟩, ⟨"r5", 1⟩]
      [⟨"r1", 0, some .approve, some 90⟩,
       ⟨"r2", 0, some .conditional, some 70⟩,
       ⟨"r3", 0, some .reject, some 40⟩]
      [] [] [] [] 1 = .ok d := by
  have hvalid : validRoster
      [⟨"r1", 1⟩, ⟨"r2", 1⟩, ⟨"r3", 1⟩, ⟨"r4", 1⟩, ⟨"r5", 1⟩] = true := by
    simp [validRoster]
  refine (c5_quorum defaultConfig
    [⟨"r1", 1⟩, ⟨"r2", 1⟩, ⟨"r3", 1⟩, ⟨"r4", 1⟩, ⟨"r5", 1⟩]
    [⟨"r1", 0, some .approve, some 90⟩,
     ⟨"r2", 0, some .conditional, some 70⟩,
     ⟨"r3", 0, some .reject, some 40⟩]
    [] [] [] [] 1 hvalid).2.1 ?_
  have hr : respondersCount
      [⟨"r1", 1⟩, ⟨"r2", 1⟩, ⟨"r3", 1⟩, ⟨"r4", 1⟩, ⟨"r5", 1⟩]
      [⟨"r1", 0, some .approve, some 90⟩,
       ⟨"r2", 0, some .conditional, some 70⟩,
       ⟨"r3", 0, some .reject, some 40⟩] = 3 := by
    simp [respondersCount, responded]
  rw [hr]
  norm_num [defaultConfig]

/-- Dynamic weights are never negative (they are clamped at 0), so the
weighted-score hypotheses of the monotonicity theorem always hold for the
weights the ScoringEngine constructs. -/
theorem dynamicWeight_nonneg (warules : List WeightAdjustmentRule)
    (context : List String) (r : Reviewer) :
    0 ≤ dynamicWeight warules context r :=
  le_max_left 0 _

/-- C6: for fixed non-negative weights, increasing the score of any one
participant (all other scores and all weights unchanged) never decreases
the weighted score the ScoringEngine computes. -/
theorem c6_monotonicity (a b : List (ℚ × ℚ)) (w s s' : ℚ)
    (hw : ∀ p ∈ a ++ (w, s) :: b, 0 ≤ p.1) (hs : s ≤ s') :
    weightedScoreOf (a ++ (w, s) :: b) ≤ weightedScoreOf (a ++ (w, s') :: b) := by
  have hw0 : 0 ≤ w := hw (w, s) (by simp)
  have hfst : ((a ++ (w, s) :: b).map Prod.fst).sum =
      ((a ++ (w, s') :: b).map Prod.fst).sum := by
    simp [List.map_append]
  have hnum : ((a ++ (w, s) :: b).map (fun p => p.1 * p.2)).sum ≤
      ((a ++ (w, s') :: b).map (fun p => p.1 * p.2)).sum := by
    simp only [List.map_append, List.sum_append, List.map_cons,
      List.sum_cons]
    have hmul : w * s ≤ w * s' := mul_le_mul_of_nonneg_left hs hw0
    linarith
  have hden0 : 0 ≤ ((a ++ (w, s') :: b).map Prod.fst).sum := by
    apply List.sum_nonneg
    intro x hx
    obtain ⟨p, hp, rfl⟩ := List.mem_map.mp hx
    rcases List.mem_append.mp hp with hpa | hpc
    · exact hw p (List.mem_append.mpr (Or.inl hpa))
    · rcases List.mem_cons.mp hpc with rfl | hpb
      · exact hw0
      · exact hw p (by simp [hpb])
  unfold weightedScoreOf
  rw [hfst]
  exact div_le_div_of_nonneg_right hnum hden0

/-- C6 witness: raising the first participant's score from 40 to 60 with
weights (2, 1) does not decrease the weighted score. -/
theorem c6_witness :
    weightedScoreOf [((2 : ℚ), (40 : ℚ)), ((1 : ℚ), (50 : ℚ))] ≤
      weightedScoreOf [((2 : ℚ), (60 : ℚ)), ((1 : ℚ), (50 : ℚ))] :=
  c6_monotonicity [] [((1 : ℚ), (50 : ℚ))] 2 40 60
    (by
      intro p hp
      rcases List.mem_cons.mp hp with rfl | hp2
      · norm_num
      · rcases List.mem_cons.mp hp2 with rfl | hp3
        · norm_num
        · simp at hp3)
    (by norm_num)

/-- The agent names of the rendered debate cards are exactly the fixed
agent order restricted to the agents present in the input. -/
theorem displayDebates_names (ds : List Scripts.Debate) :
    (Scripts.displayDebates ds).map (fun d => d.agent_name) =
      Scripts.agentOrder.filter
        (fun name => (Scripts.groupedDebates ds name).isSome) := by
  unfold Scripts.displayDebates
  generalize Scripts.agentOrder = l
  induction l with
  | nil => rfl
  | cons x xs ih =>
    cases hx : Scripts.groupedDebates ds x with
    | none => simp [List.filterMap_cons, hx, List.filter_cons, ih]
    | some d =>
      have hx' : ds.find? (fun e => e.agent_name == x) = some d := hx
      have hname : d.agent_name = x := by
        have := List.find?_some hx'
        simpa using this
      simp [List.filterMap_cons, hx, List.filter_cons, ih, hname]

/-- C8: `displayDebates` renders at most one card per agent name — the
first entry in input order for that agent — renders only the six known
agents, and always in the fixed agent order regardless of input order. -/
theorem c8_display_debates (ds : List Scripts.Debate) :
    ((Scripts.displayDebates ds).map (fun d => d.agent_name) =
      Scripts.agentOrder.filter
        (fun name => (Scripts.groupedDebates ds name).isSome)) ∧
    (∀ name, ((Scripts.displayDebates ds).filter
        (fun d => d.agent_name == name)).length ≤ 1) ∧
    (∀ d, d ∈ Scripts.displayDebates ds →
      d.agent_name ∈ Scripts.agentOrder ∧
      ds.find? (fun e => e.agent_name == d.agent_name) = some d) := by
  have h1 := displayDebates_names ds
  refine ⟨h1, ?_, ?_⟩
  · intro name
    have hnodup : ((Scripts.displayDebates ds).map
        (fun d => d.agent_name)).Nodup := by
      rw [h1]
      exact List.Nodup.filter _ (by decide)
    have hcount := List.nodup_iff_count_le_one.mp hnodup name
    have heq : ((Scripts.displayDebates ds).filter
        (fun d => d.agent_name == name)).length =
        List.countP (fun x => x == name)
          ((Scripts.displayDebates ds).map (fun d => d.agent_name)) := by
      rw [List.countP_map, ← List.countP_eq_length_filter]
      rfl
    rw [heq]
    exact hcount
  · intro d hd
    obtain ⟨name, hnmem, hfind⟩ :=
      List.mem_filterMap.mp (by exact hd)
    have hfind' : ds.find? (fun e => e.agent_name == name) = some d := hfind
    have hname : d.agent_name = name := by
      have := List.find?_some hfind'
      simpa using this
    exact ⟨hname ▸ hnmem, hname ▸ hfind'⟩

/-- C8 witness: duplicate and unknown agents — the second TrendAgent
entry and the unknown agent are dropped; cards appear in fixed order. -/
theorem c8_witness :
    ((Scripts.displayDebates
      [⟨"CMOAgent", "cmo", "approve", none⟩,
       ⟨"TrendAgent", "trend", "approve", none⟩,
       ⟨"UnknownAgent", "x", "reject", none⟩,
       ⟨"TrendAgent", "trend2", "reject", none⟩]).map
        (fun d => d.agent_name) =
      Scripts.agentOrder.filter
        (fun name => (Scripts.groupedDebates
          [⟨"CMOAgent", "cmo", "approve", none⟩,
           ⟨"TrendAgent", "trend", "approve", none⟩,
           ⟨"UnknownAgent", "x", "reject", none⟩,
           ⟨"TrendAgent", "trend2", "reject", none⟩] name).isSome)) ∧
    (((Scripts.displayDebates
      [⟨"CMOAgent", "cmo", "approve", none⟩,
       ⟨"TrendAgent", "trend", "approve", none⟩,
       ⟨"UnknownAgent", "x", "reject", none⟩,
       ⟨"TrendAgent", "trend2", "reject", none⟩]).filter
        (fun d => d.agent_name == "TrendAgent")).length ≤ 1) :=
  ⟨(c8_display_debates
      [⟨"CMOAgent", "cmo", "approve", none⟩,
       ⟨"TrendAgent", "trend", "approve", none⟩,
       ⟨"UnknownAgent", "x", "reject", none⟩,
       ⟨"TrendAgent", "trend2", "reject", none⟩]).1,
   (c8_display_debates
      [⟨"CMOAgent", "cmo", "approve", none⟩,
       ⟨"TrendAgent", "trend", "approve", none⟩,
       ⟨"UnknownAgent", "x", "reject", none⟩,
       ⟨"TrendAgent", "trend2", "reject", none⟩]).2.1 "TrendAgent"⟩

/-- C9: the ChatPanel display list is a permutation of the fetched chat
history plus exactly the WebSocket messages of type agent_thinking,
debate or system (all other types excluded), and it is sorted in
non-decreasing timestamp order — for every arrival order of the input. -/
theorem c9_chat_panel (chat : List ChatPanel.ChatMessage)
    (ws : List ChatPanel.WebSocketMessage) :
    (ChatPanel.allMessages chat ws).Perm
      ((chat.map ChatPanel.chatToDisplay) ++
        ((ws.filter ChatPanel.keepWs).enum.map
          (fun p => ChatPanel.wsToDisplay p.1 p.2))) ∧
    (ChatPanel.allMessages chat ws).Pairwise
      (fun a b => a.timestamp ≤ b.timestamp) ∧
    (∀ m ∈ ws, (ChatPanel.keepWs m = true ↔
      (m.type = "agent_thinking" ∨ m.type = "debate" ∨
        m.type = "system"))) := by
  refine ⟨List.mergeSort_perm _ _, ?_, ?_⟩
  · have htrans : ∀ a b c : ChatPanel.DisplayMessage,
        ChatPanel.byTimestamp a b = true → ChatPanel.byTimestamp b c = true →
        ChatPanel.byTimestamp a c = true := by
      intro a b c hab hbc
      simp only [ChatPanel.byTimestamp, decide_eq_true_eq] at *
      exact le_trans hab hbc
    have htotal : ∀ a b : ChatPanel.DisplayMessage,
        (ChatPanel.byTimestamp a b || ChatPanel.byTimestamp b a) = true := by
      intro a b
      simp only [ChatPanel.byTimestamp, Bool.or_eq_true, decide_eq_true_eq]
      exact Int.le_total a.timestamp b.timestamp
    have hsorted := List.sorted_mergeSort htrans htotal
      ((chat.map ChatPanel.chatToDisplay) ++
        ((ws.filter ChatPanel.keepWs).enum.map
          (fun p => ChatPanel.wsToDisplay p.1 p.2)))
    refine List.Pairwise.imp ?_ hsorted
    intro a b hab
    simpa [ChatPanel.byTimestamp] using hab
  · intro m _
    cases m <;> simp [ChatPanel.keepWs, ChatPanel.WebSocketMessage.type]

/-- C9 witness: an out-of-order system message and an excluded
agent_status message — the display holds the kept messages sorted by
timestamp. -/
theorem c9_witness :
    (ChatPanel.allMessages [⟨"m1", "hello", "You", 5⟩]
        [.system "info" "started" 3, .agentStatus "a1" "Trend" "idle" none 4]).Perm
      (([⟨"m1", "hello", "You", 5⟩] : List ChatPanel.ChatMessage).map
          ChatPanel.chatToDisplay ++
        ((([.system "info" "started" 3,
            .agentStatus "a1" "Trend" "idle" none 4] :
              List ChatPanel.WebSocketMessage).filter
          ChatPanel.keepWs).enum.map
          (fun p => ChatPanel.wsToDisplay p.1 p.2))) ∧
    (ChatPanel.keepWs (.agentStatus "a1" "Trend" "idle" none 4) = true ↔
      ((ChatPanel.WebSocketMessage.agentStatus "a1" "Trend" "idle"
          none 4).type = "agent_thinking" ∨
        (ChatPanel.WebSocketMessage.agentStatus "a1" "Trend" "idle"
          none 4).type = "debate" ∨
        (ChatPanel.WebSocketMessage.agentStatus "a1" "Trend" "idle"
          none 4).type = "system")) :=
  ⟨(c9_chat_panel [⟨"m1", "hello", "You", 5⟩]
      [.system "info" "started" 3,
       .agentStatus "a1" "Trend" "idle" none 4]).1,
   (c9_chat_panel [⟨"m1", "hello", "You", 5⟩]
      [.system "info" "started" 3,
       .agentStatus "a1" "Trend" "idle" none 4]).2.2
     (.agentStatus "a1" "Trend" "idle" none 4) (by simp)⟩

/-- Without an open event, the scheduled reconnects all come from closes
that each increment the attempt counter while it is below the limit. -/
theorem wsSchedCount_no_open (maxAttempts : Nat) :
    ∀ (evs : List Hook.WSEvent) (s : Hook.WSState),
      Hook.WSEvent.onOpen ∉ evs → s.attempts ≤ maxAttempts →
      Hook.wsSchedCount maxAttempts s evs + s.attempts ≤ maxAttempts := by
  intro evs
  induction evs with
  | nil =>
    intro s _ h
    simpa [Hook.wsSchedCount] using h
  | cons e evs ih =>
    intro s hno hle
    have hno' : Hook.WSEvent.onOpen ∉ evs :=
      fun h => hno (List.mem_cons_of_mem _ h)
    have hne : e ≠ Hook.WSEvent.onOpen :=
      fun h => hno (h ▸ List.mem_cons_self _ _)
    cases e with
    | onOpen => exact absurd rfl hne
    | onClose =>
      by_cases hb : (s.shouldReconnect && decide
          (s.attempts < maxAttempts)) = true
      · have hlt : s.attempts < maxAttempts := by
          have hb' := hb
          simp only [Bool.and_eq_true, decide_eq_true_eq] at hb'
          exact hb'.2
        have hih : Hook.wsSchedCount maxAttempts { s with
            isConnected := false, attempts := s.attempts + 1,
            pending := true } evs + (s.attempts + 1) ≤ maxAttempts := by
          simpa using ih { s with
            isConnected := false, attempts := s.attempts + 1,
            pending := true } hno' hlt
        simp [Hook.wsSchedCount, Hook.wsStep, hb]
        omega
      · have hbf : (s.shouldReconnect && decide
            (s.attempts < maxAttempts)) = false := by
          simpa using hb
        by_cases hm : maxAttempts ≤ s.attempts
        · have hd : decide (maxAttempts ≤ s.attempts) = true :=
            decide_eq_true hm
          have h1 := ih { s with
            isConnected := false,
            error := some "Max reconnection attempts reached" } hno' hle
          simp [Hook.wsSchedCount, Hook.wsStep, hbf, hd]
          simpa using h1
        · have hd : decide (maxAttempts ≤ s.attempts) = false :=
            decide_eq_false hm
          have h2 := ih { s with isConnected := false } hno' hle
          simp [Hook.wsSchedCount, Hook.wsStep, hbf, hd]
          simpa using h2
    | disconnectCall =>
      have hih := ih { s with
        shouldReconnect := false, pending := false,
        isConnected := false } hno' hle
      simp [Hook.wsSchedCount, Hook.wsStep]
      simpa using hih

/-- Once reconnection is disabled (`disconnect()` was called), no later
event schedules a reconnect and a cleared timer stays cleared. -/
theorem wsSchedCount_no_reconnect (maxAttempts : Nat) :
    ∀ (evs : List Hook.WSEvent) (s : Hook.WSState),
      s.shouldReconnect = false →
      Hook.wsSchedCount maxAttempts s evs = 0 ∧
      (s.pending = false →
        (Hook.wsRun maxAttempts s evs).pending = false) := by
  intro evs
  induction evs with
  | nil =>
    intro s h
    exact ⟨rfl, fun hp => hp⟩
  | cons e evs ih =>
    intro s hsr
    cases e with
    | onOpen =>
      have hih := ih { s with
        isConnected := true, error := none,
        attempts := 0, pending := false } hsr
      constructor
      · simp [Hook.wsSchedCount, Hook.wsStep]
        simpa using hih.1
      · intro _
        simp [Hook.wsRun, Hook.wsStep]
        simpa using hih.2 rfl
    | onClose =>
      have hbf : (s.shouldReconnect && decide
          (s.attempts < maxAttempts)) = false := by
        simp [hsr]
      by_cases hm : maxAttempts ≤ s.attempts
      · have hd : decide (maxAttempts ≤ s.attempts) = true :=
          decide_eq_true hm
        have h1 := ih { s with
          isConnected := false,
          error := some "Max reconnection attempts reached" } hsr
        constructor
        · simp [Hook.wsSchedCount, Hook.wsStep, hbf, hd]
          simpa using h1.1
        · intro hp
          simp [Hook.wsRun, Hook.wsStep, hbf, hd]
          simpa using h1.2 hp
      · have hd : decide (maxAttempts ≤ s.attempts) = false :=
          decide_eq_false hm
        have h2 := ih { s with isConnected := false } hsr
        constructor
        · simp [Hook.wsSchedCount, Hook.wsStep, hbf, hd]
          simpa using h2.1
        · intro hp
          simp [Hook.wsRun, Hook.wsStep, hbf, hd]
          simpa using h2.2 hp
    | disconnectCall =>
      have hih := ih { s with
        shouldReconnect := false, pending := false,
        isConnected := false } rfl
      constructor
      · simp [Hook.wsSchedCount, Hook.wsStep]
        simpa using hih.1
      · intro _
        simp [Hook.wsRun, Hook.wsStep]
        simpa using hih.2 rfl

/-- C10: the reconnect logic schedules at most maxAttempts − attempts
further reconnects while no open succeeds; a successful open resets the
attempt counter and clears the error; a close at the limit sets the
max-attempts error and schedules nothing, and with no further open no
reconnect is ever scheduled again; after a `disconnect()` call no
reconnect is ever scheduled and the cleared timer stays cleared. -/
theorem c10_reconnect (maxAttempts : Nat) (s : Hook.WSState)
    (evs : List Hook.WSEvent) :
    (s.attempts ≤ maxAttempts → Hook.WSEvent.onOpen ∉ evs →
      Hook.wsSchedCount maxAttempts s evs ≤ maxAttempts - s.attempts) ∧
    ((Hook.wsStep maxAttempts s .onOpen).1.attempts = 0 ∧
      (Hook.wsStep maxAttempts s .onOpen).1.error = none) ∧
    (s.attempts = maxAttempts →
      (Hook.wsStep maxAttempts s .onClose).1.error =
        some "Max reconnection attempts reached" ∧
      (Hook.wsStep maxAttempts s .onClose).2 = false) ∧
    (s.attempts = maxAttempts → Hook.WSEvent.onOpen ∉ evs →
      Hook.wsSchedCount maxAttempts s evs = 0) ∧
    (Hook.wsSchedCount maxAttempts
        (Hook.wsStep maxAttempts s .disconnectCall).1 evs = 0 ∧
      (Hook.wsRun maxAttempts
        (Hook.wsStep maxAttempts s .disconnectCall).1 evs).pending =
          false) := by
  refine ⟨?_, ⟨rfl, rfl⟩, ?_, ?_, ?_⟩
  · intro hle hno
    have := wsSchedCount_no_open maxAttempts evs s hno hle
    omega
  · intro hmax
    have hb : (s.shouldReconnect && decide
        (s.attempts < maxAttempts)) = false := by
      simp [hmax]
    constructor <;> simp [Hook.wsStep, hb, hmax]
  · intro hmax hno
    have := wsSchedCount_no_open maxAttempts evs s hno (le_of_eq hmax)
    omega
  · have := wsSchedCount_no_reconnect maxAttempts evs
      (Hook.wsStep maxAttempts s .disconnectCall).1 rfl
    exact ⟨this.1, this.2 rfl⟩

/-- C10 witness: from a fresh state, three consecutive closes with limit
2 schedule exactly at most 2 reconnects, and after a disconnect nothing
is scheduled. -/
theorem c10_witness :
    Hook.wsSchedCount 2 Hook.initialState
        [Hook.WSEvent.onClose, Hook.WSEvent.onClose, Hook.WSEvent.onClose] ≤
      2 - Hook.initialState.attempts ∧
    Hook.wsSchedCount 2
      (Hook.wsStep 2 Hook.initialState .disconnectCall).1
      [Hook.WSEvent.onClose, Hook.WSEvent.onClose] = 0 :=
  ⟨(c10_reconnect 2 Hook.initialState
      [Hook.WSEvent.onClose, Hook.WSEvent.onClose, Hook.WSEvent.onClose]).1
      (by decide) (by decide),
   (c10_reconnect 2 Hook.initialState
      [Hook.WSEvent.onClose, Hook.WSEvent.onClose]).2.2.2.2.1⟩

end Synedra
